import Mathlib

/-!
Verification of the MemeMeow API layer (src/api.py) against its
natural-language specification.

The development shallowly embeds the request/response layer of the
repository: the search-result post-processor (src/api.py lines 48-68) and
the HTTP handlers for /generate-cache, /api-config, /libs_manifest and the
/search request model.  Python values that may be either a string or a
(path, hash) tuple are modelled by `PyVal`; Python exceptions by `Option`
and `Except`; Python string truthiness by comparison with the empty string
(the configuration fields involved are strings, where `None` and `""` are
falsy alike and the difference is not observable on the paths exercised
here).  The Python standard-library path helpers used by the source
(`os.path.basename`, `os.path.splitext`, `os.path.relpath`) are embedded
from their CPython `posixpath` implementations; `re.sub(pat, "", s)` and
`re.search` are embedded for patterns that are literal strings without
regex metacharacters.
-/

/-- A raw search result as the Python code sees it: either a plain path
string, or a (path, sha256) tuple when the engine was called with the
"hash" return-type hint (src/api.py line 94). -/
inductive PyVal : Type where
  | str (s : String)
  | pair (path hash : String)
deriving DecidableEq, Repr

/-- Last index of character `c` in the list, or `none`: the value of
Python's `str.rfind` (with `-1` rendered as `none`). -/
def rfindIdx (c : Char) : List Char → Option Nat
  | [] => none
  | x :: xs =>
    match rfindIdx c xs with
    | some i => some (i + 1)
    | none => if x = c then some 0 else none

/-- Models `posixpath.basename`: everything after the final slash. -/
def basename (p : String) : String :=
  match rfindIdx '/' p.toList with
  | some i => String.mk (p.toList.drop (i + 1))
  | none => p

/-- Models `posixpath.splitext` (CPython `genericpath._splitext` with
separator `/` and extension separator `.`): split at the last dot when it
lies after the last slash and the characters between the start of the
final component and that dot are not all dots (so a dotfile such as
".bashrc" has no extension). -/
def splitext (p : String) : String × String :=
  let l := p.toList
  match rfindIdx '.' l with
  | none => (p, "")
  | some d =>
    let nameStart : Nat :=
      match rfindIdx '/' l with
      | none => 0
      | some i => i + 1
    let dotAfterSep : Bool :=
      match rfindIdx '/' l with
      | none => true
      | some i => decide (i < d)
    let allDots : Bool :=
      (List.range (d - nameStart)).all (fun j => l.getD (nameStart + j) ' ' == '.')
    if dotAfterSep && !allDots then (String.mk (l.take d), String.mk (l.drop d))
    else (p, "")

/-- Splits a character list at slashes, accumulating the current component
in reverse; helper for `pathParts`. -/
def splitSlashAux : List Char → List Char → List (List Char)
  | acc, [] => [acc.reverse]
  | acc, c :: cs =>
    if c = '/' then acc.reverse :: splitSlashAux [] cs
    else splitSlashAux (c :: acc) cs

/-- Nonempty slash-separated components of a path: the list
`[x for x in p.split(sep) if x]` built by `posixpath.relpath`. -/
def pathParts (p : String) : List String :=
  ((splitSlashAux [] p.toList).map String.mk).filter (fun s => s ≠ "")

/-- Length of the longest common prefix of two component lists: the value
of `len(commonprefix([a, b]))` in `posixpath.relpath`. -/
def commonPrefixLen : List String → List String → Nat
  | a :: as, b :: bs => if a = b then commonPrefixLen as bs + 1 else 0
  | _, _ => 0

/-- Joins path components with slashes: `'/'.join(parts)`. -/
def joinSlash : List String → String
  | [] => ""
  | [x] => x
  | x :: y :: xs => x ++ "/" ++ joinSlash (y :: xs)

/-- Models `posixpath.relpath(path, start)` for absolute POSIX paths that
contain no `.` or `..` components (on those `os.path.abspath` is the
identity, so the current working directory plays no role): drop the common
leading components, ascend with `..` for each remaining component of
`start`, then descend into the remaining components of `path`. -/
def relpath (path start : String) : String :=
  let pl := pathParts path
  let sl := pathParts start
  let i := commonPrefixLen sl pl
  let rel := List.replicate (sl.length - i) ".." ++ pl.drop i
  if rel = [] then "." else joinSlash rel

/-- One bounded pass of leftmost non-overlapping removal of the literal
pattern `pat`; the fuel is an upper bound on the number of steps (each
step consumes at least one character when `pat` is nonempty, so fuel equal
to the length of the text is exact). -/
def subLitAux (pat : List Char) : Nat → List Char → List Char
  | _, [] => []
  | 0, l => l
  | fuel + 1, c :: cs =>
    if pat.isPrefixOf (c :: cs) then
      subLitAux pat fuel ((c :: cs).drop pat.length)
    else
      c :: subLitAux pat fuel cs

/-- Models Python `re.sub(pat, "", s)` for a pattern `pat` that is a
literal string with no regex metacharacters: remove the leftmost
non-overlapping occurrences of `pat` in one left-to-right scan. -/
def reSub (pat s : String) : String :=
  if pat = "" then s
  else String.mk (subLitAux pat.toList s.toList.length s.toList)

/-- Whether `pat` occurs as a contiguous sublist of the second list. -/
def listIsInfix (pat : List Char) : List Char → Bool
  | [] => pat.isEmpty
  | c :: cs => pat.isPrefixOf (c :: cs) || listIsInfix pat cs

/-- Models Python `re.search(pat, s) is not None` for a literal pattern:
whether `pat` occurs as a substring of `s`. -/
def containsLit (pat s : String) : Bool :=
  listIsInfix pat.toList s.toList

/-- Models Python `s.endswith(suf)`. -/
def pyEndsWith (s suf : String) : Bool :=
  suf.toList.reverse.isPrefixOf s.toList.reverse

/-- Models Python `f'{v}'` on a value that is a string or a tuple of two
strings: the string itself, or the tuple's repr (for component strings
without quotes or backslashes, which are the only ones that reach this
corner of the code). -/
def pyStr : PyVal → String
  | PyVal.str s => s
  | PyVal.pair a b => "(" ++ "'" ++ a ++ "', '" ++ b ++ "')"

/-- The `urls` section of the process-wide `api_config`, as read by
`search_result_postprocess` (src/api.py lines 51-65).  Each optional field
is a string whose Python truthiness is nonemptiness. -/
structure UrlsConfig where
  return_type : String
  path_replace_regex : String
  url_prefix : String
  url_postfix : String
deriving DecidableEq, Repr

/-- Identifier selection of `search_result_postprocess` (src/api.py lines
51-56): `abs_path` passes the value through, `rel_path` applies
`os.path.relpath(v, Config().base_dir)` (raising on a tuple or an empty
path, modelled as `none`), `sha256` computes
`v[1] + os.path.splitext(os.path.basename(v[0]))[1]` (on a string this
indexes its characters, raising when it is shorter than two), and any
other return type leaves the value unchanged. -/
def selectIdentifier (cfg : UrlsConfig) (baseDir : String) (v : PyVal) : Option PyVal :=
  if cfg.return_type = "abs_path" then some v
  else if cfg.return_type = "rel_path" then
    match v with
    | PyVal.str s => if s = "" then none else some (PyVal.str (relpath s baseDir))
    | PyVal.pair _ _ => none
  else if cfg.return_type = "sha256" then
    match v with
    | PyVal.pair p h => some (PyVal.str (h ++ (splitext (basename p)).2))
    | PyVal.str s =>
      if 2 ≤ s.length then
        some (PyVal.str (String.mk [s.toList.getD 1 ' ']
          ++ (splitext (basename (String.mk [s.toList.getD 0 ' ']))).2))
      else none
  else some v

/-- Regex-strip step of `search_result_postprocess` (src/api.py lines
57-59): when a replace pattern is configured, `re.sub(pattern, "", v)`;
`re.sub` raises on a tuple (modelled as `none`). -/
def stripRegex (cfg : UrlsConfig) (v : PyVal) : Option PyVal :=
  if cfg.path_replace_regex = "" then some v
  else
    match v with
    | PyVal.str s => some (PyVal.str (reSub cfg.path_replace_regex s))
    | PyVal.pair _ _ => none

/-- Prefix step of `search_result_postprocess` (src/api.py lines 61-62):
when a URL prefix is configured, `v = f'{prefix}/{v}'`. -/
def prefixStep (cfg : UrlsConfig) (v : PyVal) : PyVal :=
  if cfg.url_prefix = "" then v
  else PyVal.str (cfg.url_prefix ++ "/" ++ pyStr v)

/-- Postfix step of `search_result_postprocess` (src/api.py lines 63-65):
when a URL postfix is configured and the value does not already end with
it, the code appends `'/' + url_prefix` (the prefix, not the postfix —
the defect flagged by the spec); `str.endswith` raises on a tuple
(modelled as `none`). -/
def postfixStep (cfg : UrlsConfig) (v : PyVal) : Option PyVal :=
  if cfg.url_postfix = "" then some v
  else
    match v with
    | PyVal.str s =>
      some (PyVal.str (if pyEndsWith s cfg.url_postfix then s
        else s ++ "/" ++ cfg.url_prefix))
    | PyVal.pair _ _ => none

/-- The body of `search_result_postprocess`'s loop for one raw result
(src/api.py lines 51-65): identifier selection, regex strip, prefix step,
postfix step, in that order; `none` models a Python exception escaping
the loop. -/
def processOne (cfg : UrlsConfig) (baseDir : String) (v : PyVal) : Option PyVal :=
  (selectIdentifier cfg baseDir v).bind fun v1 =>
    (stripRegex cfg v1).bind fun v2 =>
      postfixStep cfg (prefixStep cfg v2)

/-- The `for v in results` loop of `search_result_postprocess`, carrying
the accumulator `ret` to which each processed value is appended
(src/api.py lines 49-67). -/
def postprocessLoop (cfg : UrlsConfig) (baseDir : String) (acc : List PyVal) :
    List PyVal → Option (List PyVal)
  | [] => some acc
  | v :: rest =>
    (processOne cfg baseDir v).bind fun w =>
      postprocessLoop cfg baseDir (acc ++ [w]) rest

/-- Models `search_result_postprocess` (src/api.py lines 48-68), with the
`urls` configuration and `Config().base_dir` passed explicitly; `none`
models an exception escaping the function. -/
def search_result_postprocess (cfg : UrlsConfig) (baseDir : String)
    (results : List PyVal) : Option (List PyVal) :=
  postprocessLoop cfg baseDir [] results

/-- A background task the `/generate-cache` handler can schedule on the
request's `BackgroundTasks` object (src/api.py line 128). -/
inductive BackgroundTask : Type where
  | generateCache
deriving DecidableEq, Repr

/-- Models the `POST /generate-cache` handler (src/api.py lines 124-130):
given the engine's `has_cache()` report, the list of background tasks it
schedules and the response message. -/
def generate_cache (hasCache : Bool) : List BackgroundTask × String :=
  if !hasCache then ([BackgroundTask.generateCache], "Cache generation started")
  else ([], "Cache already exists")

/-- The mutable engine-facing configuration held by
`search_engine.embedding_service` (src/api.py lines 147-149). -/
structure EmbeddingServiceState where
  api_key : String
  base_url : String
deriving DecidableEq, Repr

/-- The `ConfigUpdate` request model (src/api.py lines 41-43): both fields
optional, defaulting to `None`. -/
structure ConfigUpdate where
  api_key : Option String
  base_url : Option String
deriving DecidableEq, Repr

/-- The two truthiness-guarded assignments of the `PUT /api-config`
handler (src/api.py lines 146-149): a field is applied only when it is
present and nonempty, since `if update.api_key:` is false for both `None`
and `""`. -/
def applyConfigUpdate (u : ConfigUpdate) (s : EmbeddingServiceState) :
    EmbeddingServiceState :=
  let s1 :=
    match u.api_key with
    | some k => if k ≠ "" then { s with api_key := k } else s
    | none => s
  match u.base_url with
  | some b => if b ≠ "" then { s1 with base_url := b } else s1
  | none => s1

/-- Outcome of a handler: a JSON payload, or an `HTTPException` with a
status code and detail string. -/
inductive HandlerResponse (α : Type) : Type where
  | ok (payload : α)
  | httpError (status : Nat) (detail : String)
deriving DecidableEq, Repr

/-- Models the `PUT /api-config` handler (src/api.py lines 142-153): the
update is applied to the in-memory engine state, then `config.save()`
runs; on a save failure the handler raises `HTTPException(500, str(e))`
while the in-memory state keeps its mutated value. -/
def update_config (u : ConfigUpdate) (s : EmbeddingServiceState)
    (saveResult : Except String Unit) :
    EmbeddingServiceState × HandlerResponse String :=
  let s2 := applyConfigUpdate u s
  match saveResult with
  | Except.ok _ => (s2, HandlerResponse.ok "Config updated successfully")
  | Except.error e => (s2, HandlerResponse.httpError 500 e)

/-- Outcome of opening and JSON-parsing the manifest file, after the
conditional rebuild: found and parsed, `FileNotFoundError`,
`json.JSONDecodeError`, or any other exception with its description. -/
inductive ManifestReadResult (α : Type) : Type where
  | ok (data : α)
  | notFound
  | badJson
  | otherFail (msg : String)
deriving DecidableEq, Repr

/-- Models the `GET /libs_manifest` handler (src/api.py lines 106-122):
`existsBefore` is the `os.path.exists` check on the manifest path and the
first component of the result records whether
`CommunityService().reload_community_info()` was invoked (exactly when the
file was absent); `readResult` is the outcome of the subsequent open and
parse, mapped to the response. -/
def get_libs_manifest (α : Type) (existsBefore : Bool)
    (readResult : ManifestReadResult α) : Bool × HandlerResponse α :=
  (!existsBefore,
    match readResult with
    | ManifestReadResult.ok d => HandlerResponse.ok d
    | ManifestReadResult.notFound =>
        HandlerResponse.httpError 404 "Manifest file not found"
    | ManifestReadResult.badJson =>
        HandlerResponse.httpError 500 "Invalid JSON format in manifest file"
    | ManifestReadResult.otherFail e => HandlerResponse.httpError 500 e)

/-- The validated `SearchRequestEnhanced` model (src/api.py lines 33-39):
`query : str`, `n_results : int = 5`, `resource_pack_uuids : List[str] = []`,
`ai_search : bool = False`.  No value constraint (non-emptiness,
positivity) is declared on any field. -/
structure SearchRequestEnhanced where
  query : String
  n_results : Int
  resource_pack_uuids : List String
  ai_search : Bool
deriving DecidableEq, Repr

/-- A `POST /search` body before validation: each field present or
absent (fields of the wrong JSON type are rejected the same way as a
missing required field and are not modelled separately). -/
structure RawSearchRequest where
  query : Option String
  n_results : Option Int
  resource_pack_uuids : Option (List String)
  ai_search : Option Bool
deriving DecidableEq, Repr

/-- Models FastAPI/pydantic validation of `SearchRequestEnhanced`
(src/api.py lines 33-39): the only required field is `query`; a body
missing it is rejected with client-error status 422 before the handler
runs; every other field falls back to its declared default.  The model
declares no value constraints, so no value of a present, well-typed field
is rejected. -/
def validate_search_request (r : RawSearchRequest) :
    Except Nat SearchRequestEnhanced :=
  match r.query with
  | none => Except.error 422
  | some q =>
    Except.ok
      { query := q
        n_results := r.n_results.getD 5
        resource_pack_uuids := r.resource_pack_uuids.getD []
        ai_search := r.ai_search.getD false }

/-! Helper lemmas shared by the claim theorems. -/

theorem singleton_toList (c : Char) : (String.singleton c).toList = [c] := rfl

theorem singleton_ne_empty (c : Char) : String.singleton c ≠ "" := by
  intro h
  have h2 := congrArg String.toList h
  simp [singleton_toList] at h2

theorem update_config_fst (u : ConfigUpdate) (s : EmbeddingServiceState)
    (sv : Except String Unit) : (update_config u s sv).1 = applyConfigUpdate u s := by
  cases sv <;> rfl

theorem isPrefixOf_single (c x : Char) (xs : List Char) :
    [c].isPrefixOf (x :: xs) = (c == x) := by
  simp [List.isPrefixOf]

theorem subLitAux_single_not_mem (c : Char) (fuel : Nat) :
    ∀ l : List Char, l.length ≤ fuel → c ∉ subLitAux [c] fuel l := by
  induction fuel with
  | zero =>
    intro l hl
    have : l = [] := List.length_eq_zero.mp (Nat.le_zero.mp hl)
    subst this
    simp [subLitAux]
  | succ n ih =>
    intro l hl
    cases l with
    | nil => simp [subLitAux]
    | cons x xs =>
      rw [subLitAux, isPrefixOf_single]
      by_cases hcx : c = x
      · subst hcx
        simp only [beq_self_eq_true, if_true, List.drop_succ_cons, List.drop_zero]
        exact ih xs (Nat.le_of_succ_le_succ hl)
      · have hne : (c == x) = false := beq_eq_false_iff_ne.mpr hcx
        rw [hne]
        simp only [Bool.false_eq_true, if_false, List.mem_cons]
        rintro (h | h)
        · exact hcx h
        · exact ih xs (Nat.le_of_succ_le_succ hl) h

theorem listIsInfix_single_eq_false (c : Char) :
    ∀ l : List Char, c ∉ l → listIsInfix [c] l = false := by
  intro l hl
  induction l with
  | nil => rfl
  | cons x xs ih =>
    rw [listIsInfix, isPrefixOf_single]
    have h1 : (c == x) = false := beq_eq_false_iff_ne.mpr (fun h => hl (h ▸ List.mem_cons_self c xs))
    have h2 : listIsInfix [c] xs = false := ih (fun h => hl (List.mem_cons_of_mem x h))
    rw [h1, h2]
    rfl

theorem containsLit_single_reSub (c : Char) (s : String) :
    containsLit (String.singleton c) (reSub (String.singleton c) s) = false := by
  rw [reSub, if_neg (singleton_ne_empty c)]
  rw [containsLit]
  rw [singleton_toList]
  exact listIsInfix_single_eq_false c _
    (subLitAux_single_not_mem c s.toList.length s.toList (Nat.le_refl _))

theorem stripRegex_of_ne_pair (cfg : UrlsConfig) (hne : cfg.path_replace_regex ≠ "")
    (p q : String) : stripRegex cfg (PyVal.pair p q) = none := by
  unfold stripRegex
  rw [if_neg hne]

theorem stripRegex_of_ne_str (cfg : UrlsConfig) (hne : cfg.path_replace_regex ≠ "")
    (s : String) :
    stripRegex cfg (PyVal.str s) = some (PyVal.str (reSub cfg.path_replace_regex s)) := by
  unfold stripRegex
  rw [if_neg hne]

theorem prefixStep_of_empty (cfg : UrlsConfig) (hpre : cfg.url_prefix = "") (v : PyVal) :
    prefixStep cfg v = v := by
  unfold prefixStep
  rw [if_pos hpre]

theorem postfixStep_of_empty (cfg : UrlsConfig) (hpost : cfg.url_postfix = "") (v : PyVal) :
    postfixStep cfg v = some v := by
  unfold postfixStep
  rw [if_pos hpost]

theorem processOne_single_char (rt base : String) (c : Char) (v w : PyVal)
    (h : processOne ⟨rt, String.singleton c, "", ""⟩ base v = some w) :
    ∃ s, w = PyVal.str s ∧ containsLit (String.singleton c) s = false := by
  unfold processOne at h
  cases hsel : selectIdentifier ⟨rt, String.singleton c, "", ""⟩ base v with
  | none => rw [hsel, Option.none_bind'] at h; exact absurd h (by simp)
  | some v1 =>
    rw [hsel, Option.some_bind'] at h
    cases v1 with
    | pair p q =>
      rw [stripRegex_of_ne_pair _ (singleton_ne_empty c), Option.none_bind'] at h
      exact absurd h (by simp)
    | str s =>
      rw [stripRegex_of_ne_str _ (singleton_ne_empty c), Option.some_bind',
        prefixStep_of_empty _ rfl, postfixStep_of_empty _ rfl] at h
      have h2 := Option.some.inj h
      subst h2
      exact ⟨_, rfl, containsLit_single_reSub c s⟩

theorem postprocessLoop_eq_mapMAux (cfg : UrlsConfig) (base : String) :
    ∀ (l acc : List PyVal),
      postprocessLoop cfg base acc l
        = (List.mapM' (processOne cfg base) l).map (fun out => acc ++ out) := by
  intro l
  induction l with
  | nil =>
    intro acc
    rw [postprocessLoop, List.mapM'_nil]
    simp
  | cons v rest ih =>
    intro acc
    rw [postprocessLoop, List.mapM'_cons]
    cases hv : processOne cfg base v with
    | none => simp
    | some w =>
      rw [Option.some_bind', ih (acc ++ [w])]
      cases hrest : List.mapM' (processOne cfg base) rest with
      | none => simp
      | some ys => simp [List.append_assoc]

theorem postprocessLoop_eq_mapM (cfg : UrlsConfig) (base : String)
    (l acc : List PyVal) :
    postprocessLoop cfg base acc l
      = (List.mapM (processOne cfg base) l).map (fun out => acc ++ out) := by
  rw [← List.mapM'_eq_mapM]
  exact postprocessLoop_eq_mapMAux cfg base l acc

theorem mapMAux_some_spec (f : PyVal → Option PyVal) :
    ∀ (l out : List PyVal), List.mapM' f l = some out →
      out.length = l.length ∧
      ∀ i, i < l.length →
        f (l.getD i (PyVal.str "")) = some (out.getD i (PyVal.str "")) := by
  intro l
  induction l with
  | nil =>
    intro out h
    rw [List.mapM'_nil] at h
    have h2 : ([] : List PyVal) = out := Option.some.inj h
    subst h2
    exact ⟨rfl, fun i hi => absurd hi (Nat.not_lt_zero i)⟩
  | cons v rest ih =>
    intro out h
    rw [List.mapM'_cons] at h
    cases hv : f v with
    | none => rw [hv] at h; exact absurd h (by simp)
    | some w =>
      rw [hv] at h
      cases hrest : List.mapM' f rest with
      | none => rw [hrest] at h; exact absurd h (by simp)
      | some ys =>
        rw [hrest] at h
        have h2 : (w :: ys) = out := Option.some.inj h
        subst h2
        obtain ⟨hlen, helem⟩ := ih ys hrest
        refine ⟨by simp [hlen], ?_⟩
        intro i hi
        cases i with
        | zero => simpa using hv
        | succ j =>
          simp only [List.getD_cons_succ]
          exact helem j (Nat.lt_of_succ_lt_succ hi)

theorem mapM_some_spec (f : PyVal → Option PyVal) (l out : List PyVal)
    (h : List.mapM f l = some out) :
    out.length = l.length ∧
    ∀ i, i < l.length →
      f (l.getD i (PyVal.str "")) = some (out.getD i (PyVal.str "")) := by
  refine mapMAux_some_spec f l out ?_
  rw [List.mapM'_eq_mapM]
  exact h

theorem postprocessLoop_single_char (rt base : String) (c : Char) :
    ∀ (l acc out : List PyVal),
      postprocessLoop ⟨rt, String.singleton c, "", ""⟩ base acc l = some out →
      (∀ v ∈ acc, ∃ s, v = PyVal.str s ∧ containsLit (String.singleton c) s = false) →
      ∀ v ∈ out, ∃ s, v = PyVal.str s ∧ containsLit (String.singleton c) s = false := by
  intro l
  induction l with
  | nil =>
    intro acc out h hacc
    rw [postprocessLoop] at h
    have h2 := Option.some.inj h
    subst h2
    exact hacc
  | cons v rest ih =>
    intro acc out h hacc
    rw [postprocessLoop] at h
    cases hv : processOne ⟨rt, String.singleton c, "", ""⟩ base v with
    | none => rw [hv, Option.none_bind'] at h; exact absurd h (by simp)
    | some w =>
      rw [hv, Option.some_bind'] at h
      refine ih (acc ++ [w]) out h ?_
      intro x hx
      rcases List.mem_append.mp hx with hx2 | hx2
      · exact hacc x hx2
      · have hxw := List.mem_singleton.mp hx2
        subst hxw
        exact processOne_single_char rt base c v x hv

/-! The claim theorems. -/

/-- C1 (code bug): in the postfix branch of `search_result_postprocess`
the source appends `'/' + url_prefix` instead of the configured postfix
(src/api.py line 65).  With prefix "pre" and postfix "post", the result
"a" is rendered as "pre/a/pre", which does not end with the postfix; the
prefix value was appended instead. -/
theorem C1_postfix_branch_uses_url_prefix_value :
    search_result_postprocess ⟨"abs_path", "", "pre", "post"⟩ "" [PyVal.str "a"]
      = some [PyVal.str "pre/a/pre"] ∧
    pyEndsWith "pre/a/pre" "post" = false ∧
    pyEndsWith "pre/a/pre" "pre" = true := by decide

/-- C2 (confirmed): the identifier-selection step of the post-processor is
the claimed case analysis on the configured return type: `abs_path` passes
the raw value through, `rel_path` rewrites a (nonempty) path relative to
the configured base directory, `sha256` renders a (path, hash) pair as the
hash with the path's original extension appended, and any other value
leaves the raw value unchanged. -/
theorem C2_identifier_selection_cases (cfg : UrlsConfig) (base : String) :
    (cfg.return_type = "abs_path" → ∀ v, selectIdentifier cfg base v = some v) ∧
    (cfg.return_type = "rel_path" → ∀ p, p ≠ "" →
      selectIdentifier cfg base (PyVal.str p) = some (PyVal.str (relpath p base))) ∧
    (cfg.return_type = "sha256" → ∀ p h, selectIdentifier cfg base (PyVal.pair p h)
      = some (PyVal.str (h ++ (splitext (basename p)).2))) ∧
    (cfg.return_type ≠ "abs_path" → cfg.return_type ≠ "rel_path" →
      cfg.return_type ≠ "sha256" → ∀ v, selectIdentifier cfg base v = some v) := by
  refine ⟨?_, ?_, ?_, ?_⟩
  · intro h v
    simp [selectIdentifier, h]
  · intro h p hp
    simp [selectIdentifier, h, hp]
  · intro h p hs
    simp [selectIdentifier, h]
  · intro h1 h2 h3 v
    simp [selectIdentifier, h1, h2, h3]

/-- C2 witness: evaluation of the sha256 case at a concrete pair. -/
theorem C2_selection_witness :
    selectIdentifier ⟨"sha256", "", "", ""⟩ "" (PyVal.pair "/imgs/cat.png" "deadbeef")
      = some (PyVal.str "deadbeef.png") := by
  have h := (C2_identifier_selection_cases ⟨"sha256", "", "", ""⟩ "").2.2.1 rfl
    "/imgs/cat.png" "deadbeef"
  rw [h]
  decide

/-- C3 counterexample: removing the matches of a configured strip pattern
can create a new match, so the claim that no match of the pattern occurs
in any output identifier is false.  With pattern "ab" (a literal regex)
and input "aabb", `re.sub` removes the single occurrence at offset 1 and
the remaining characters form "ab", which matches the pattern. -/
theorem C3_counterexample_match_reappears :
    search_result_postprocess ⟨"abs_path", "ab", "", ""⟩ "" [PyVal.str "aabb"]
      = some [PyVal.str "ab"] ∧
    containsLit "ab" "ab" = true := by decide

/-- C3 (amended): if the configured strip pattern is a single literal
character and neither a URL prefix nor a URL postfix is configured, then
no match of the pattern occurs in any identifier of the post-processor's
output (single-character removal cannot create new matches, and no later
step re-introduces text). -/
theorem C3_single_char_strip_no_match (rt base : String) (c : Char)
    (l out : List PyVal)
    (h : search_result_postprocess ⟨rt, String.singleton c, "", ""⟩ base l = some out) :
    ∀ v ∈ out, ∃ s, v = PyVal.str s ∧ containsLit (String.singleton c) s = false :=
  postprocessLoop_single_char rt base c l [] out h
    (fun x hx => absurd hx (List.not_mem_nil x))

/-- C3 witness: the amended theorem applied to stripping 'a' from
"banana" with no prefix or postfix configured. -/
theorem C3_strip_witness :
    ∃ s, PyVal.str "bnn" = PyVal.str s
      ∧ containsLit (String.singleton 'a') s = false :=
  C3_single_char_strip_no_match "abs_path" "" 'a' [PyVal.str "banana"]
    [PyVal.str "bnn"] (by decide) (PyVal.str "bnn") (by decide)

/-- C4 (confirmed): when the engine reports no cache, the handler
schedules exactly one cache-construction background task and answers
"Cache generation started"; when a cache exists it schedules nothing and
answers "Cache already exists" (src/api.py lines 124-130). -/
theorem C4_generate_cache_schedules_exactly_once :
    generate_cache false
      = ([BackgroundTask.generateCache], "Cache generation started") ∧
    generate_cache true = ([], "Cache already exists") := by decide

/-- C5 (confirmed): the `PUT /api-config` handler applies only the fields
present in the request: a request without `base_url` leaves the engine's
`base_url` untouched, and a request without `api_key` leaves the engine's
`api_key` untouched (src/api.py lines 142-151). -/
theorem C5_update_config_partial_frame (u : ConfigUpdate)
    (s : EmbeddingServiceState) (sv : Except String Unit) :
    (u.base_url = none → ((update_config u s sv).1).base_url = s.base_url) ∧
    (u.api_key = none → ((update_config u s sv).1).api_key = s.api_key) := by
  rw [update_config_fst]
  constructor
  · intro h
    cases hk : u.api_key with
    | none => simp [applyConfigUpdate, h, hk]
    | some k =>
      by_cases hke : k = "" <;> simp [applyConfigUpdate, h, hk, hke]
  · intro h
    cases hb : u.base_url with
    | none => simp [applyConfigUpdate, h, hb]
    | some b =>
      by_cases hbe : b = "" <;> simp [applyConfigUpdate, h, hb, hbe]

/-- C5 witness: an update carrying only `api_key` leaves `base_url` at its
old value. -/
theorem C5_frame_witness :
    ((update_config ⟨some "newkey", none⟩ ⟨"a", "b"⟩ (Except.ok ())).1).base_url
      = "b" :=
  (C5_update_config_partial_frame ⟨some "newkey", none⟩ ⟨"a", "b"⟩
    (Except.ok ())).1 rfl

/-- C6 (confirmed): when persisting the configuration fails after the
in-memory fields were applied, the handler answers with an internal error
(status 500) carrying the failure's description, and the in-memory engine
state keeps its mutated value — no rollback (src/api.py lines 145-153). -/
theorem C6_save_failure_no_rollback (u : ConfigUpdate)
    (s : EmbeddingServiceState) (e : String) :
    update_config u s (Except.error e)
      = (applyConfigUpdate u s, HandlerResponse.httpError 500 e) := rfl

/-- C7 (confirmed): the `GET /libs_manifest` handler rebuilds the manifest
exactly when the file was absent, answers 404 when the file is still
absent after the rebuild, answers 500 with an invalid-format message
(distinct from the 404 response) when the file is not valid JSON, and
answers a generic 500 with the failure's description otherwise
(src/api.py lines 106-122). -/
theorem C7_libs_manifest_error_cases (α : Type) (existsBefore : Bool)
    (r : ManifestReadResult α) :
    ((get_libs_manifest α existsBefore r).1 = !existsBefore) ∧
    (r = ManifestReadResult.notFound →
      (get_libs_manifest α existsBefore r).2
        = HandlerResponse.httpError 404 "Manifest file not found") ∧
    (r = ManifestReadResult.badJson →
      (get_libs_manifest α existsBefore r).2
          = HandlerResponse.httpError 500 "Invalid JSON format in manifest file" ∧
        (get_libs_manifest α existsBefore r).2
          ≠ HandlerResponse.httpError 404 "Manifest file not found") ∧
    (∀ msg, r = ManifestReadResult.otherFail msg →
      (get_libs_manifest α existsBefore r).2 = HandlerResponse.httpError 500 msg) := by
  refine ⟨rfl, ?_, ?_, ?_⟩
  · intro h
    subst h
    rfl
  · intro h
    subst h
    refine ⟨rfl, ?_⟩
    intro hcontra
    have := HandlerResponse.httpError.inj hcontra
    omega
  · intro msg h
    subst h
    rfl

/-- C7 witness: a malformed manifest file present from the start yields
the invalid-format 500 response and triggers no rebuild. -/
theorem C7_manifest_witness :
    (get_libs_manifest Nat true ManifestReadResult.badJson).2
      = HandlerResponse.httpError 500 "Invalid JSON format in manifest file" :=
  ((C7_libs_manifest_error_cases Nat true ManifestReadResult.badJson).2.2.1 rfl).1

/-- C8 counterexample: the request model declares no value constraints, so
a `POST /search` body with an empty query and `n_results = 0` passes
validation and reaches the handler logic instead of being rejected. -/
theorem C8_counterexample_empty_query_accepted :
    validate_search_request ⟨some "", some 0, some [], some false⟩
      = Except.ok ⟨"", 0, [], false⟩ := rfl

/-- C8 (amended): validation of `POST /search` checks only the presence
(and JSON type) of fields: a body whose `query` field is missing is
rejected with client-error status 422 before the handler runs, and every
body carrying a `query` value — including the empty string, and any
`n_results`, even below 1 — is accepted. -/
theorem C8_validation_checks_presence_only (r : RawSearchRequest) :
    ((∃ req, validate_search_request r = Except.ok req) ↔ r.query ≠ none) ∧
    (r.query = none → validate_search_request r = Except.error 422) := by
  cases hq : r.query with
  | none => simp [validate_search_request, hq]
  | some q => simp [validate_search_request, hq]

/-- C8 witness: a body with no `query` field is rejected with 422. -/
theorem C8_missing_query_witness :
    validate_search_request ⟨none, some 3, none, none⟩ = Except.error 422 :=
  (C8_validation_checks_presence_only ⟨none, some 3, none, none⟩).2 rfl

/-- C9 (confirmed): the post-processor is an element-wise map over the raw
results: it equals `List.mapM` of the per-element body, and whenever it
returns a list, that list has the length of the input and its i-th element
is the per-element body applied to the i-th input (order preserved, each
output depending only on its own input and the configuration). -/
theorem C9_postprocess_elementwise (cfg : UrlsConfig) (base : String)
    (l : List PyVal) :
    search_result_postprocess cfg base l = List.mapM (processOne cfg base) l ∧
    ∀ out, search_result_postprocess cfg base l = some out →
      out.length = l.length ∧
      ∀ i, i < l.length →
        processOne cfg base (l.getD i (PyVal.str ""))
          = some (out.getD i (PyVal.str "")) := by
  have hmap : search_result_postprocess cfg base l
      = List.mapM (processOne cfg base) l := by
    cases hm : List.mapM (processOne cfg base) l with
    | none => exact (postprocessLoop_eq_mapM cfg base l []).trans (by rw [hm]; rfl)
    | some ys => exact (postprocessLoop_eq_mapM cfg base l []).trans (by rw [hm]; rfl)
  refine ⟨hmap, ?_⟩
  intro out h
  rw [hmap] at h
  exact mapM_some_spec (processOne cfg base) l out h

/-- C9 witness: the element-wise description evaluated on a singleton
input list. -/
theorem C9_elementwise_witness :
    processOne ⟨"abs_path", "", "", ""⟩ "" (PyVal.str "x")
      = some (PyVal.str "x") :=
  ((C9_postprocess_elementwise ⟨"abs_path", "", "", ""⟩ "" [PyVal.str "x"]).2
    [PyVal.str "x"] rfl).2 0 (by decide)

/-- C10 (confirmed): a `PUT /api-config` field equal to the empty string
is falsy in the handler's `if update.api_key:` test and is skipped exactly
like an absent field, so neither `api_key` nor `base_url` can be set to
the empty string through this endpoint (src/api.py lines 145-149). -/
theorem C10_empty_string_update_ignored (u : ConfigUpdate)
    (s : EmbeddingServiceState) (sv : Except String Unit) :
    (u.api_key = some "" → ((update_config u s sv).1).api_key = s.api_key) ∧
    (u.base_url = some "" → ((update_config u s sv).1).base_url = s.base_url) ∧
    (((update_config u s sv).1).api_key = "" → s.api_key = "") ∧
    (((update_config u s sv).1).base_url = "" → s.base_url = "") := by
  rw [update_config_fst]
  refine ⟨?_, ?_, ?_, ?_⟩
  · intro h
    cases hb : u.base_url with
    | none => simp [applyConfigUpdate, h, hb]
    | some b => by_cases hbe : b = "" <;> simp [applyConfigUpdate, h, hb, hbe]
  · intro h
    cases hk : u.api_key with
    | none => simp [applyConfigUpdate, h, hk]
    | some k => by_cases hke : k = "" <;> simp [applyConfigUpdate, h, hk, hke]
  · intro h
    cases hk : u.api_key with
    | none =>
      cases hb : u.base_url with
      | none => simpa [applyConfigUpdate, hk, hb] using h
      | some b =>
        by_cases hbe : b = "" <;>
          simpa [applyConfigUpdate, hk, hb, hbe] using h
    | some k =>
      by_cases hke : k = ""
      · cases hb : u.base_url with
        | none => simpa [applyConfigUpdate, hk, hke, hb] using h
        | some b =>
          by_cases hbe : b = "" <;>
            simpa [applyConfigUpdate, hk, hke, hb, hbe] using h
      · cases hb : u.base_url with
        | none => simp [applyConfigUpdate, hk, hke, hb] at h
        | some b =>
          by_cases hbe : b = "" <;>
            simp [applyConfigUpdate, hk, hke, hb, hbe] at h
  · intro h
    cases hb : u.base_url with
    | none =>
      cases hk : u.api_key with
      | none => simpa [applyConfigUpdate, hk, hb] using h
      | some k =>
        by_cases hke : k = "" <;>
          simpa [applyConfigUpdate, hk, hke, hb] using h
    | some b =>
      by_cases hbe : b = ""
      · cases hk : u.api_key with
        | none => simpa [applyConfigUpdate, hk, hb, hbe] using h
        | some k =>
          by_cases hke : k = "" <;>
            simpa [applyConfigUpdate, hk, hke, hb, hbe] using h
      · cases hk : u.api_key with
        | none => simp [applyConfigUpdate, hk, hb, hbe] at h
        | some k =>
          by_cases hke : k = "" <;>
            simp [applyConfigUpdate, hk, hke, hb, hbe] at h

/-- C10 witness: an update carrying `api_key = ""` leaves the stored key
unchanged. -/
theorem C10_empty_string_witness :
    ((update_config ⟨some "", some ""⟩ ⟨"k0", "b0"⟩ (Except.ok ())).1).api_key
      = "k0" :=
  (C10_empty_string_update_ignored ⟨some "", some ""⟩ ⟨"k0", "b0"⟩
    (Except.ok ())).1 rfl
